import Mathlib

/-!
# Verification of `armadillo_bits/memory.hpp`

A shallow embedding of class `memory`
(`src/build/tmp/include/armadillo_bits/memory.hpp`): the size rounding
`enlarge_to_mult_of_chunksize`, `acquire`, `acquire_chunked`, `release` and
`is_aligned`.

* Machine integers are natural numbers reduced modulo `2 ^ bits` wherever the
  C++ arithmetic or a conversion can wrap.
* Pointers are natural numbers, `NULL` is `0`.
* What is fixed by the preprocessor and by type declarations outside the file
  (allocator backend, `ARMA_USE_MMAP`, width of `uword`, `size_t` and of a
  pointer, `arma_config::spmat_chunksize`) is a field of `Build`.
* Calls to the C library and to the operating system are recorded, in program
  order, in a trace of `Call` values; what they return is read from `Env`.
-/

namespace ArmaMmap

/-! ## Build configuration -/

/-- The five mutually exclusive `#if / #elif / #else` branches that select the
allocator in `acquire` and `release`. -/
inductive Backend
  | tbb_alloc       -- ARMA_USE_TBB_ALLOC
  | mkl_alloc       -- ARMA_USE_MKL_ALLOC
  | posix_memalign  -- ARMA_HAVE_POSIX_MEMALIGN
  | msc_ver         -- _MSC_VER
  | fallback        -- #else
  deriving DecidableEq, Repr

/-- Everything the compiler fixes before `memory.hpp` is translated. -/
structure Build where
  /-- Width of `uword` in bits. -/
  uword_bits : Nat
  /-- Width of `std::size_t` in bits, `8 * sizeof(std::size_t)`. -/
  size_t_bits : Nat
  /-- Width of a data pointer in bits, `8 * sizeof(void*)`. -/
  ptr_bits : Nat
  /-- The constant `arma_config::spmat_chunksize`. -/
  spmat_chunksize : Nat
  /-- Which allocator branch is compiled. -/
  backend : Backend
  /-- Whether `ARMA_USE_MMAP` is defined. -/
  use_mmap : Bool
  /-- Whether `(defined(ARMA_HAVE_ICC_ASSUME_ALIGNED) ||
  defined(ARMA_HAVE_GCC_ASSUME_ALIGNED)) && !defined(ARMA_DONT_CHECK_ALIGNMENT)`
  holds. -/
  check_alignment : Bool
  deriving DecidableEq, Repr

/-- Number of values of `uword`. -/
def UWORD_MOD (b : Build) : Nat := 2 ^ b.uword_bits

/-- The value `std::numeric_limits<size_t>::max()`. -/
def SIZE_MAX (b : Build) : Nat := 2 ^ b.size_t_bits - 1

/-- Conversion of an unsigned value to `uword`. -/
def to_uword (b : Build) (x : Nat) : Nat := x % 2 ^ b.uword_bits

/-- Conversion of an unsigned value to `size_t`, as in `size_t(n_elem)`. -/
def to_size_t (b : Build) (x : Nat) : Nat := x % 2 ^ b.size_t_bits

/-- The macro `MAP_FAILED` of `<sys/mman.h>`, `(void*) -1`. -/
def MAP_FAILED (b : Build) : Nat := 2 ^ b.ptr_bits - 1

/-- The null pointer. -/
def NULL : Nat := 0

/-! ## Size rounding -/

/-- Source lines 43-53.
`chunksize` is the constant converted to `uword`; the sum and the product are
`uword` arithmetic.  (The division is by a positive `chunksize` in every
statement below.) -/
def enlarge_to_mult_of_chunksize (b : Build) (n_elem : Nat) : Nat :=
  let chunksize := to_uword b b.spmat_chunksize
  let n_elem_mod :=
    if n_elem > 0 then
      to_uword b (to_uword b (((n_elem - 1) / chunksize) + 1) * chunksize)
    else
      0
  n_elem_mod

/-! ## Calls to the outside world -/

/-- One call that leaves `memory.hpp`, or one store through `mmap_happened`. -/
inductive Call
  /-- The store `(*mmap_happened) = v`. -/
  | store_flag (v : Bool)
  /-- The call `scalable_malloc(size)`. -/
  | scalable_malloc (size : Nat)
  /-- The call `mkl_malloc(size, align)`. -/
  | mkl_malloc (size align : Nat)
  /-- The call `posix_memalign(&memptr, align, size)`. -/
  | posix_memalign (align size : Nat)
  /-- The call `_aligned_malloc(size, align)`. -/
  | aligned_malloc (size align : Nat)
  /-- The call `malloc(size)`. -/
  | malloc (size : Nat)
  /-- The diagnostic line sent to `cout`. -/
  | cout
  /-- The call `mkstemp(mmfp)`. -/
  | mkstemp
  /-- The construction `std::vector<eT> empty(count, 0)`. -/
  | vector_ctor (count : Nat)
  /-- The construction of the `std::fstream` on the temporary file. -/
  | fstream_open
  /-- The call `b.write(ptr, bytes)`. -/
  | fstream_write (bytes : Nat)
  /-- The call `open(mmfp, O_RDWR)`. -/
  | open_rdwr
  /-- The call `mmap(0, len, PROT_READ|PROT_WRITE, MAP_SHARED, fd, 0)`. -/
  | mmap (len : Nat) (fd : Int)
  /-- The call `b.close()`. -/
  | fstream_close
  /-- The call `close(fd)`. -/
  | close (fd : Int)
  /-- The call `scalable_free(mem)`. -/
  | scalable_free (mem : Nat)
  /-- The call `mkl_free(mem)`. -/
  | mkl_free (mem : Nat)
  /-- The call `free(mem)`. -/
  | free (mem : Nat)
  /-- The call `_aligned_free(mem)`. -/
  | aligned_free (mem : Nat)
  /-- The call `munmap(mem, len)`. -/
  | munmap (mem len : Nat)
  deriving DecidableEq, Repr

/-- What the calls return, and what the file system takes.  Each call whose
result the code reads is made at most once in a run of `acquire` or `release`,
so one field per call is enough. -/
structure Env where
  /-- Pointer returned by `scalable_malloc`, `mkl_malloc`, `_aligned_malloc`
  or `malloc`. -/
  alloc_ret : Nat
  /-- Status returned by `posix_memalign`. -/
  memalign_status : Int
  /-- Pointer that `posix_memalign` stores in `memptr`. -/
  memalign_ptr : Nat
  /-- File descriptor returned by `mkstemp`. -/
  mkstemp_ret : Int
  /-- Whether the library manages to build the vector of 10000000 elements. -/
  vector_ok : Bool
  /-- Whether the constructor of the `std::fstream` manages to open the
  file. -/
  fstream_ok : Bool
  /-- Number of bytes that the file system accepts for the file before a write
  fails (the free space of the disk). -/
  disk_free : Nat
  /-- File descriptor returned by `open`. -/
  open_ret : Int
  /-- Pointer returned by `mmap`. -/
  mmap_ret : Nat
  /-- Value returned by `munmap`. -/
  munmap_ret : Int
  deriving DecidableEq, Repr

/-- The ways in which `acquire` and `release` leave by an exception. -/
inductive Err
  /-- Message "arma::memory::acquire(): requested size is too large". -/
  | too_large
  /-- An exception of `std::vector` (`std::length_error`, `std::bad_alloc`). -/
  | vector_failed
  /-- Message "arma::memory::acquire(): unable to create an empty binary". -/
  | create_failed
  /-- Message `strerror(errno)` after `mmap` returned `MAP_FAILED`. -/
  | mmap_failed
  /-- Message "arma::memory::acquire(): out of memory". -/
  | out_of_memory
  /-- Message "arma::memory::release(): unable to unmap matrix". -/
  | unmap_failed
  deriving DecidableEq, Repr

/-- Equality of two results can be computed. -/
instance decEqExcept {ε α : Type} [DecidableEq ε] [DecidableEq α] :
    DecidableEq (Except ε α)
  | .ok x, .ok y =>
      if h : x = y then isTrue (by rw [h]) else isFalse (fun h' => h (Except.ok.inj h'))
  | .error x, .error y =>
      if h : x = y then isTrue (by rw [h]) else isFalse (fun h' => h (Except.error.inj h'))
  | .ok _, .error _ => isFalse (fun h => Except.noConfusion h)
  | .error _, .ok _ => isFalse (fun h => Except.noConfusion h)

/-- Modelled from the spec: the macro `arma_debug_check(state, msg)` is defined
outside `memory.hpp`.  The spec (sections 1 and 6) describes it as a fails-fast
assertion facility: the call fails with the message when the condition it is
given holds, and otherwise does nothing.  The result says whether it fails. -/
def arma_debug_check (state : Bool) : Bool := state

/-- Modelled from the spec: the macro `arma_check_bad_alloc(state, msg)` is
defined outside `memory.hpp`.  It is the same assertion facility, used for the
out-of-memory error (spec sections 4.2 and 7).  The result says whether it
fails. -/
def arma_check_bad_alloc (state : Bool) : Bool := state

/-! ## Acquire -/

/-- The value of `sizeof(eT)*n_elem`, of `n_elem*sizeof(eT)` and of
`sizeof(eT)*10000000` once it is a `size_t` (an argument of type `size_t`, or
the variable `len`): the product is unsigned arithmetic in the wider operand
type and the conversion reduces it modulo `2 ^ size_t_bits`. -/
def size_t_mul (b : Build) (x y : Nat) : Nat := to_size_t b (x * y)

/-- The value of `sizeof(void*)` in bytes. -/
def sizeof_ptr (b : Build) : Nat := b.ptr_bits / 8

/-- The allocator call of source lines 74-101, for a request of `bytes`
bytes. -/
def alloc_call (b : Build) (bytes : Nat) : Call :=
  match b.backend with
  | .tbb_alloc => .scalable_malloc bytes
  | .mkl_alloc => .mkl_malloc bytes 128
  | .posix_memalign =>
      let alignment := 16
      .posix_memalign (if alignment ≥ sizeof_ptr b then alignment else sizeof_ptr b) bytes
  | .msc_ver => .aligned_malloc bytes 16
  | .fallback => .malloc bytes

/-- The value of `out_memptr` after source lines 74-101. -/
def alloc_result (b : Build) (env : Env) : Nat :=
  match b.backend with
  | .posix_memalign => if env.memalign_status = 0 then env.memalign_ptr else NULL
  | _ => env.alloc_ret

/-- The stream `b` of source line 114 together with the file it appends to. -/
structure FileState where
  /-- Whether the stream is in a good state; a stream that is not ignores
  every later write. -/
  good : Bool
  /-- Length of the file in bytes. -/
  length : Nat
  deriving DecidableEq, Repr

/-- The effect of `b.write(ptr, bytes)` on the stream and its file.  A stream
that is not good writes nothing.  Otherwise the bytes are appended; when the
file system does not accept all of them the file takes what fits and the
stream goes bad. -/
def fstream_write (env : Env) (st : FileState) (bytes : Nat) : FileState :=
  if st.good then
    if st.length + bytes ≤ env.disk_free then
      { good := true, length := st.length + bytes }
    else
      { good := false, length := max st.length env.disk_free }
  else
    st

/-- The loop `for(uword i = 0; i < bound; i++) b.write(&empty[0], burst)` of
source lines 115-117, started in the stream state `st`; the first argument is
the number of iterations left.  The result is the stream state after the loop
and the calls made.  (The body does not read `i`, and `i < bound` keeps `i++`
from wrapping.  The state of the stream is not tested anywhere.) -/
def write_bursts (env : Env) (burst : Nat) : Nat → FileState → FileState × List Call
  | 0, st => (st, [])
  | k + 1, st =>
      let r := write_bursts env burst k (fstream_write env st burst)
      (r.1, Call.fstream_write burst :: r.2)

/-- How a call of `acquire` ends. -/
structure Acquired where
  /-- The returned pointer, or the exception. -/
  result : Except Err Nat
  /-- The value of `*mmap_happened` at the end; `none` when the pointer is
  null. -/
  flag : Option Bool
  /-- The calls made, oldest first. -/
  trace : List Call
  /-- Length in bytes, at the end, of the file that the stream `b` appends to;
  0 when no stream was opened. -/
  file_len : Nat
  deriving DecidableEq, Repr

/-- Source lines 57-136, `memory::acquire<eT>(n_elem, mmap_happened)`.
`sizeof_eT` is `sizeof(eT)`; `mmap_happened` is `none` for a null pointer and
`some v` for a pointer to a `bool` holding `v`.  The trace holds the calls the
function body makes; what destructors do while an exception unwinds is not
recorded. -/
def acquire (b : Build) (env : Env) (sizeof_eT n_elem : Nat)
    (mmap_happened : Option Bool) : Acquired :=
  -- line 64
  let flag0 : Option Bool := if mmap_happened.isSome then some false else none
  let t0 : List Call := if mmap_happened.isSome then [Call.store_flag false] else []
  -- lines 66-70
  if arma_debug_check (decide (to_size_t b n_elem > SIZE_MAX b / sizeof_eT)) then
    { result := .error .too_large, flag := flag0, trace := t0, file_len := 0 }
  else
    -- lines 74-101
    let t1 := t0 ++ [alloc_call b (size_t_mul b sizeof_eT n_elem)]
    let out_memptr := alloc_result b env
    -- line 105
    if n_elem > 0 then
      -- lines 107-108
      if b.use_mmap && mmap_happened.isSome then
        -- lines 110-113
        let t2 := t1 ++ [Call.cout, Call.mkstemp, Call.vector_ctor 10000000]
        let f := env.mkstemp_ret
        -- line 113: the constructor throws when 10000000 elements of sizeof(eT)
        -- bytes are more than a size_t can count, or when the library cannot
        -- get the memory
        if !(env.vector_ok && decide (10000000 * sizeof_eT ≤ SIZE_MAX b)) then
          { result := .error .vector_failed, flag := flag0, trace := t2, file_len := 0 }
        else
          -- lines 114-117
          let stream : FileState := { good := env.fstream_ok, length := 0 }
          let filled := write_bursts env (size_t_mul b sizeof_eT 10000000)
            (to_uword b ((n_elem / 10000000) + 1)) stream
          let t3 := t2 ++ [Call.fstream_open] ++ filled.2
          let file_len := filled.1.length
          -- lines 118-122
          if arma_debug_check (decide (f = -1)) then
            { result := .error .create_failed, flag := flag0, trace := t3,
              file_len := file_len }
          else
            -- lines 123-125
            let mmap_binary_default := env.open_ret
            let len := size_t_mul b n_elem sizeof_eT
            let t4 := t3 ++ [Call.open_rdwr, Call.mmap len mmap_binary_default]
            let out_memptr := env.mmap_ret
            -- line 126
            if arma_debug_check (decide (out_memptr = MAP_FAILED b)) then
              { result := .error .mmap_failed, flag := flag0, trace := t4,
                file_len := file_len }
            else
              -- lines 127-129
              let t5 := t4 ++ [Call.fstream_close, Call.close f, Call.store_flag true]
              let flag1 : Option Bool := some true
              -- line 133
              if arma_check_bad_alloc (decide (out_memptr = NULL)) then
                { result := .error .out_of_memory, flag := flag1, trace := t5,
                  file_len := file_len }
              else
                -- line 135
                { result := .ok out_memptr, flag := flag1, trace := t5,
                  file_len := file_len }
      else
        -- line 133
        if arma_check_bad_alloc (decide (out_memptr = NULL)) then
          { result := .error .out_of_memory, flag := flag0, trace := t1, file_len := 0 }
        else
          -- line 135
          { result := .ok out_memptr, flag := flag0, trace := t1, file_len := 0 }
    else
      -- line 135
      { result := .ok out_memptr, flag := flag0, trace := t1, file_len := 0 }

/-- Source lines 140-150, `memory::acquire_chunked<eT>(n_elem)`: the second
argument of `acquire` takes its default, `NULL`. -/
def acquire_chunked (b : Build) (env : Env) (sizeof_eT n_elem : Nat) : Acquired :=
  let n_elem_mod := enlarge_to_mult_of_chunksize b n_elem
  acquire b env sizeof_eT n_elem_mod none

/-! ## Release -/

/-- The deallocation call of source lines 159-180. -/
def free_call (b : Build) (mem : Nat) : Call :=
  match b.backend with
  | .tbb_alloc => .scalable_free mem
  | .mkl_alloc => .mkl_free mem
  | .posix_memalign => .free mem
  | .msc_ver => .aligned_free mem
  | .fallback => .free mem

/-- How a call of `release` ends. -/
structure Released where
  /-- Normal return, or the exception. -/
  result : Except Err Unit
  /-- The calls made, oldest first. -/
  trace : List Call
  deriving DecidableEq, Repr

/-- Source lines 154-192, `memory::release<eT>(mem, mlen, mapstate)`. -/
def release (b : Build) (env : Env) (mem mlen : Nat) (mapstate : Bool) : Released :=
  -- lines 159-180
  let t1 := [free_call b mem]
  -- line 183
  if mapstate then
    -- line 185
    let t2 := t1 ++ [Call.munmap mem mlen]
    let unmap_state := decide (env.munmap_ret = -1)
    -- line 186
    if arma_debug_check unmap_state then
      { result := .error .unmap_failed, trace := t2 }
    else
      { result := .ok (), trace := t2 }
  else
    -- line 190
    { result := .ok (), trace := t1 }

/-! ## Alignment -/

/-- Source lines 196-212, `memory::is_aligned<eT>(mem)`.  The comparison of
the two `sizeof` is the comparison of the widths. -/
def is_aligned (b : Build) (mem : Nat) : Bool :=
  if b.check_alignment then
    if b.size_t_bits ≥ b.ptr_bits then decide ((to_size_t b mem) &&& 0x0F = 0) else false
  else
    false

/-! ## Builds and environments used in the examples -/

/-- A 64-bit Linux build with the default allocator and without the mapped
path. -/
def build64 : Build :=
  { uword_bits := 64, size_t_bits := 64, ptr_bits := 64, spmat_chunksize := 256,
    backend := .fallback, use_mmap := false, check_alignment := true }

/-- The build `build64` with `ARMA_HAVE_POSIX_MEMALIGN`. -/
def build64_posix : Build := { build64 with backend := .posix_memalign }

/-- The build `build64` with `ARMA_USE_MMAP`. -/
def build64_mmap : Build := { build64 with use_mmap := true }

/-- A 32-bit build. -/
def build32 : Build :=
  { uword_bits := 32, size_t_bits := 32, ptr_bits := 32, spmat_chunksize := 256,
    backend := .fallback, use_mmap := false, check_alignment := false }

/-- A 32-bit build with a 64-bit `uword`. -/
def build32_word64 : Build := { build32 with uword_bits := 64 }

/-- An environment in which every call succeeds. -/
def env_ok : Env :=
  { alloc_ret := 4096, memalign_status := 0, memalign_ptr := 8192, mkstemp_ret := 3,
    vector_ok := true, fstream_ok := true, disk_free := 1000000000000, open_ret := 4,
    mmap_ret := 1048576, munmap_ret := 0 }

/-- An environment in which the allocator returns the null pointer. -/
def env_null : Env := { env_ok with alloc_ret := 0, memalign_status := 12 }

/-- An environment in which the disk is full after 104857600 bytes and every
call succeeds. -/
def env_disk_full : Env := { env_ok with disk_free := 104857600 }

/-! ## Definitions used to state the properties -/

/-- The calls of a completed mapped path, source lines 64-129. -/
def mapped_trace (b : Build) (env : Env) (s n : Nat) : List Call :=
  [Call.store_flag false, alloc_call b (size_t_mul b s n),
    Call.cout, Call.mkstemp, Call.vector_ctor 10000000, Call.fstream_open]
  ++ List.replicate (to_uword b ((n / 10000000) + 1))
       (Call.fstream_write (size_t_mul b s 10000000))
  ++ [Call.open_rdwr, Call.mmap (size_t_mul b n s) env.open_ret,
    Call.fstream_close, Call.close env.mkstemp_ret, Call.store_flag true]

/-- The stream and its file after the zero-fill loop of the mapped path. -/
def mapped_file (b : Build) (env : Env) (s n : Nat) : FileState :=
  (write_bursts env (size_t_mul b s 10000000) (to_uword b ((n / 10000000) + 1))
    { good := env.fstream_ok, length := 0 }).1

/-- The pairing of allocation and deallocation functions as the specification
lists it: `scalable_malloc`/`scalable_free`, `mkl_malloc`/`mkl_free`,
`posix_memalign`/`free`, `_aligned_malloc`/`_aligned_free`, `malloc`/`free`. -/
def spec_paired_free (alloc : Call) (mem : Nat) : Option Call :=
  match alloc with
  | .scalable_malloc _ => some (.scalable_free mem)
  | .mkl_malloc _ _ => some (.mkl_free mem)
  | .posix_memalign _ _ => some (.free mem)
  | .aligned_malloc _ _ => some (.aligned_free mem)
  | .malloc _ => some (.free mem)
  | _ => none

/-- The number of bytes that an allocator call asks for, read off the call
itself; `none` for a call that is not an allocator call. -/
def requested_bytes : Call → Option Nat
  | .scalable_malloc size => some size
  | .mkl_malloc size _ => some size
  | .posix_memalign _ size => some size
  | .aligned_malloc size _ => some size
  | .malloc size => some size
  | _ => none

/-- Whether a call is a `b.write`. -/
def is_write : Call → Bool
  | .fstream_write _ => true
  | _ => false

/-- The `b.write` calls of a trace, in order. -/
def write_calls (t : List Call) : List Call := t.filter is_write

/-! ## Arithmetic helpers -/

/-- A value below the modulus is not changed by the conversion to `uword`. -/
theorem to_uword_of_lt (b : Build) (x : Nat) (h : x < UWORD_MOD b) : to_uword b x = x :=
  Nat.mod_eq_of_lt h

/-- A value up to `SIZE_MAX` is not changed by the conversion to `size_t`. -/
theorem to_size_t_of_le (b : Build) (x : Nat) (h : x ≤ SIZE_MAX b) : to_size_t b x = x := by
  have hp : 0 < 2 ^ b.size_t_bits := Nat.pos_pow_of_pos _ (by decide)
  unfold SIZE_MAX at h
  exact Nat.mod_eq_of_lt (by omega)

/-- When the guard of `acquire` does not fire for a count that is a value of
`size_t`, the product with the element size is computed without wrapping. -/
theorem size_t_mul_exact (b : Build) (s m : Nat) (hm : m ≤ SIZE_MAX b)
    (hg : ¬ (to_size_t b m > SIZE_MAX b / s)) : size_t_mul b s m = m * s := by
  rw [to_size_t_of_le b m hm] at hg
  rcases Nat.eq_zero_or_pos s with h0 | hs
  · subst h0
    simp [size_t_mul, to_size_t]
  · have hle : m * s ≤ SIZE_MAX b := (Nat.le_div_iff_mul_le hs).1 (by omega)
    unfold size_t_mul
    rw [Nat.mul_comm s m]
    exact to_size_t_of_le b _ hle

/-- Rounding up with integer division: `((n-1)/c + 1) * c` is a multiple of
`c`, at least `n`, and less than `n + c`. -/
theorem round_up_spec (c n : Nat) (hc : 0 < c) (hn : 0 < n) :
    n ≤ ((n - 1) / c + 1) * c ∧ ((n - 1) / c + 1) * c < n + c := by
  have h1 := Nat.div_add_mod (n - 1) c
  have h2 := Nat.mod_lt (n - 1) hc
  have h3 : ((n - 1) / c + 1) * c = c * ((n - 1) / c) + c := by ring
  constructor <;> omega

/-- The rounded value is below every multiple of `c` that is at least `n`. -/
theorem round_up_le_multiple (c n m : Nat) (hc : 0 < c) (hn : 0 < n)
    (hm : m % c = 0) (hnm : n ≤ m) : ((n - 1) / c + 1) * c ≤ m := by
  obtain ⟨k, hk⟩ := Nat.dvd_of_mod_eq_zero hm
  subst hk
  have hlt : (n - 1) / c < k := by
    apply (Nat.div_lt_iff_lt_mul hc).2
    have : n - 1 < c * k := by omega
    rw [Nat.mul_comm] at this
    exact this
  calc ((n - 1) / c + 1) * c ≤ k * c := Nat.mul_le_mul_right c hlt
    _ = c * k := Nat.mul_comm k c

/-! ## The zero-fill loop -/

/-- The calls of the loop are `k` writes of `burst` bytes, whatever happens to
the stream. -/
theorem write_bursts_calls (env : Env) (burst k : Nat) (st : FileState) :
    (write_bursts env burst k st).2 = List.replicate k (Call.fstream_write burst) := by
  induction k generalizing st with
  | zero => rfl
  | succ k ih => simp [write_bursts, ih, List.replicate_succ]

/-- A stream that is not good leaves the file as it is. -/
theorem write_bursts_not_good (env : Env) (burst k : Nat) (st : FileState)
    (h : st.good = false) : (write_bursts env burst k st).1 = st := by
  induction k generalizing st with
  | zero => rfl
  | succ k ih =>
    have hw : fstream_write env st burst = st := by simp [fstream_write, h]
    simp only [write_bursts, hw]
    exact ih st h

/-- When the stream is good and the disk takes all the bytes, the loop appends
`k * burst` bytes. -/
theorem write_bursts_all_written (env : Env) (burst k : Nat) (st : FileState)
    (hgood : st.good = true) (hfree : st.length + k * burst ≤ env.disk_free) :
    (write_bursts env burst k st).1 = { good := true, length := st.length + k * burst } := by
  induction k generalizing st with
  | zero =>
    cases st
    simp_all [write_bursts]
  | succ k ih =>
    have hmul : (k + 1) * burst = burst + k * burst := by ring
    have hle : st.length + burst ≤ env.disk_free := by rw [hmul] at hfree; omega
    have hw : fstream_write env st burst = { good := true, length := st.length + burst } := by
      simp [fstream_write, hgood, hle]
    simp only [write_bursts, hw]
    rw [ih _ rfl (by simp only; rw [hmul] at hfree; omega)]
    simp only [FileState.mk.injEq, true_and]
    rw [hmul]
    omega

/-- The file never gets more bytes than the loop asks to write. -/
theorem write_bursts_length_le (env : Env) (burst k : Nat) (st : FileState)
    (hst : st.length ≤ env.disk_free) :
    (write_bursts env burst k st).1.length ≤ env.disk_free := by
  induction k generalizing st with
  | zero => exact hst
  | succ k ih =>
    simp only [write_bursts]
    apply ih
    unfold fstream_write
    split_ifs <;> simp_all

/-! ## Claims -/

/-- C1 (as amended): for a positive chunk size `c`, `enlarge_to_mult_of_chunksize`
returns 0 on 0, and on every `n > 0` for which some multiple of `c` that is at
least `n` is a value of `uword` it returns `r` with `r % c = 0`, `r ≥ n` and
`r - n < c`, the smallest multiple of `c` that is at least `n`. -/
theorem enlarge_to_mult_of_chunksize_spec (b : Build) (n : Nat)
    (hc : 0 < to_uword b b.spmat_chunksize) :
    (n = 0 → enlarge_to_mult_of_chunksize b n = 0) ∧
    (0 < n →
      (∃ m, m % to_uword b b.spmat_chunksize = 0 ∧ n ≤ m ∧ m < UWORD_MOD b) →
      enlarge_to_mult_of_chunksize b n % to_uword b b.spmat_chunksize = 0 ∧
      n ≤ enlarge_to_mult_of_chunksize b n ∧
      enlarge_to_mult_of_chunksize b n - n < to_uword b b.spmat_chunksize ∧
      ∀ m, m % to_uword b b.spmat_chunksize = 0 → n ≤ m →
        enlarge_to_mult_of_chunksize b n ≤ m) := by
  constructor
  · intro h0
    simp [enlarge_to_mult_of_chunksize, h0]
  · intro hn ⟨m, hm, hnm, hmlt⟩
    set c := to_uword b b.spmat_chunksize with hcdef
    have hr := round_up_spec c n hc hn
    have hle := round_up_le_multiple c n m hc hn hm hnm
    have hq : (n - 1) / c + 1 < UWORD_MOD b := by
      have : (n - 1) / c + 1 ≤ ((n - 1) / c + 1) * c := Nat.le_mul_of_pos_right _ hc
      omega
    have hval : enlarge_to_mult_of_chunksize b n = ((n - 1) / c + 1) * c := by
      simp only [enlarge_to_mult_of_chunksize, ← hcdef, if_pos hn]
      rw [to_uword_of_lt b _ hq, to_uword_of_lt b _ (by omega)]
    rw [hval]
    refine ⟨Nat.mul_mod_left _ _, hr.1, by omega, ?_⟩
    intro m' hm' hnm'
    exact round_up_le_multiple c n m' hc hn hm' hnm'

/-- Witness of C1: 64-bit `uword`, chunk size 256, `n = 0` and `n = 257`. -/
theorem enlarge_to_mult_of_chunksize_spec_witness :
    0 < to_uword build64 build64.spmat_chunksize ∧
    enlarge_to_mult_of_chunksize build64 0 = 0 ∧
    enlarge_to_mult_of_chunksize build64 257 % to_uword build64 build64.spmat_chunksize = 0 ∧
    257 ≤ enlarge_to_mult_of_chunksize build64 257 ∧
    enlarge_to_mult_of_chunksize build64 257 - 257 < to_uword build64 build64.spmat_chunksize :=
  have h := (enlarge_to_mult_of_chunksize_spec build64 257 (by decide)).2 (by decide)
    ⟨512, by decide, by decide, by decide⟩
  ⟨by decide, (enlarge_to_mult_of_chunksize_spec build64 0 (by decide)).1 rfl,
    h.1, h.2.1, h.2.2.1⟩

/-- C1 (as stated) fails near the maximum of `uword`: with a 32-bit `uword`
and chunk size 256, the input `2^32 - 1` is positive and a value of `uword`,
and the result is 0, which is less than the input. -/
theorem enlarge_to_mult_of_chunksize_wraps :
    0 < to_uword build32 build32.spmat_chunksize ∧
    0 < 4294967295 ∧ 4294967295 < UWORD_MOD build32 ∧
    enlarge_to_mult_of_chunksize build32 4294967295 = 0 ∧
    ¬ (4294967295 ≤ enlarge_to_mult_of_chunksize build32 4294967295) := by
  decide

/-- Where the size guard of `acquire` is sound and where it is exact.  For
`sizeof(eT) ≥ 1` and every `n_elem`: when `acquire` fails with "requested size
is too large", the product `n_elem * sizeof(eT)` does exceed `SIZE_MAX`, and
nothing was done before but the store of `false` through a non-null flag.
When `n_elem` is a value of `size_t`, the error is raised for every product
above `SIZE_MAX`. -/
theorem acquire_too_large_guard (b : Build) (env : Env) (s n : Nat) (flag : Option Bool)
    (hs : 1 ≤ s) :
    ((acquire b env s n flag).result = .error .too_large → SIZE_MAX b < n * s) ∧
    ((acquire b env s n flag).result = .error .too_large →
      ∀ c ∈ (acquire b env s n flag).trace, c = Call.store_flag false) ∧
    (n ≤ SIZE_MAX b → SIZE_MAX b < n * s →
      (acquire b env s n flag).result = .error .too_large) := by
  by_cases hg : to_size_t b n > SIZE_MAX b / s
  · have hres : acquire b env s n flag =
        { result := .error .too_large,
          flag := if flag.isSome then some false else none,
          trace := if flag.isSome then [Call.store_flag false] else [],
          file_len := 0 } := by
      simp [acquire, arma_debug_check, hg]
    rw [hres]
    refine ⟨fun _ => ?_, ?_, fun _ _ => rfl⟩
    · have h1 : SIZE_MAX b < to_size_t b n * s := (Nat.div_lt_iff_lt_mul hs).1 hg
      have h2 : to_size_t b n ≤ n := Nat.mod_le _ _
      exact lt_of_lt_of_le h1 (Nat.mul_le_mul_right s h2)
    · intro _ c hc
      cases flag <;> simp_all
  · have hne : (acquire b env s n flag).result ≠ .error .too_large := by
      simp only [acquire, arma_debug_check, arma_check_bad_alloc, decide_eq_true_eq, hg,
        if_false]
      split_ifs <;> simp
    refine ⟨fun h => absurd h hne, fun h => absurd h hne, ?_⟩
    intro hn hprod
    rw [to_size_t_of_le b n hn] at hg
    exact absurd ((Nat.div_lt_iff_lt_mul hs).2 hprod) hg

/-- C2: the code at the failing input.  With a 64-bit `uword`, a 32-bit
`size_t` and `sizeof(eT) = 1`, the count `2^32` is a value of `uword` and its
product with the element size is above `SIZE_MAX`; but `size_t(n_elem)` is 0,
the guard does not fire, `malloc(0)` is called and its pointer is returned.  On
the same build the guard does fire for `2^29` elements of 8 bytes, before any
call. -/
theorem acquire_too_large_truncated :
    SIZE_MAX build32_word64 < 4294967296 * 1 ∧
    4294967296 < UWORD_MOD build32_word64 ∧
    to_size_t build32_word64 4294967296 = 0 ∧
    (acquire build32_word64 env_ok 1 4294967296 none).result ≠ .error .too_large ∧
    (acquire build32_word64 env_ok 1 4294967296 none).result = .ok 4096 ∧
    (acquire build32_word64 env_ok 1 4294967296 none).trace = [Call.malloc 0] ∧
    acquire build32_word64 env_ok 8 536870912 none =
      { result := .error .too_large, flag := none, trace := [], file_len := 0 } := by
  decide

/-- C3: what the code does on a mapped buffer.  In every build
`release(mem, mlen, true)` first passes `mem` to the deallocation function of
the compiled allocator and then calls `munmap(mem, mlen)`; in the default build
the calls are `free(4096)` followed by `munmap(4096, 4096)`. -/
theorem release_mapped_frees_then_unmaps (b : Build) (env : Env) (mem mlen : Nat) :
    (release b env mem mlen true).trace = [free_call b mem, Call.munmap mem mlen] ∧
    (free_call b mem = Call.scalable_free mem ∨ free_call b mem = Call.mkl_free mem ∨
      free_call b mem = Call.free mem ∨ free_call b mem = Call.aligned_free mem) ∧
    release build64 env_ok 4096 4096 true =
      { result := .ok (), trace := [Call.free 4096, Call.munmap 4096 4096] } := by
  refine ⟨?_, ?_, by decide⟩
  · simp only [release, if_true]
    split_ifs <;> rfl
  · cases hb : b.backend <;> simp [free_call, hb]

/-- No allocator call is an `mmap` call. -/
theorem alloc_call_ne_mmap (b : Build) (bytes len : Nat) (fd : Int) :
    alloc_call b bytes ≠ Call.mmap len fd := by
  cases hb : b.backend <;> simp [alloc_call, hb]

/-- C4 (as amended): for every `n_elem > 0` that passes the size check and
every backend, `acquire` never returns the null pointer: when the allocator
returned null and the mapped path is not taken, and when the mapped path ran
through and `mmap` returned null, `acquire` fails with "out of memory". -/
theorem acquire_null_is_out_of_memory (b : Build) (env : Env) (s n : Nat)
    (flag : Option Bool) (hn : 0 < n)
    (hchk : (acquire b env s n flag).result ≠ .error .too_large) :
    (acquire b env s n flag).result ≠ .ok NULL ∧
    ((b.use_mmap && flag.isSome) = false → alloc_result b env = NULL →
      (acquire b env s n flag).result = .error .out_of_memory) ∧
    ((b.use_mmap && flag.isSome) = true →
      (env.vector_ok && decide (10000000 * s ≤ SIZE_MAX b)) = true →
      env.mkstemp_ret ≠ -1 → env.mmap_ret ≠ MAP_FAILED b → env.mmap_ret = NULL →
      (acquire b env s n flag).result = .error .out_of_memory) := by
  have hg : ¬ (to_size_t b n > SIZE_MAX b / s) := by
    intro hg
    apply hchk
    simp [acquire, arma_debug_check, hg]
  refine ⟨?_, ?_, ?_⟩
  · simp only [acquire, arma_debug_check, arma_check_bad_alloc, decide_eq_true_eq, hg,
      if_false, hn, if_true]
    split_ifs <;> simp_all
  · intro hm hnull
    simp [acquire, arma_debug_check, arma_check_bad_alloc, hg, hn, hm, hnull]
  · intro hm hv hf hmf hnull
    have hg' : ¬ (SIZE_MAX b / s < to_size_t b n) := hg
    have hmf' : ¬ (NULL = MAP_FAILED b) := by rw [← hnull]; exact hmf
    simp only [Bool.and_eq_true, decide_eq_true_eq] at hm hv
    simp [acquire, arma_debug_check, arma_check_bad_alloc, hg', hn, hm.1, hm.2, hv.1, hv.2,
      hf, hnull, hmf']

/-- Witness of C4: `acquire<double>(10, NULL)` when `malloc` returns null. -/
theorem acquire_null_is_out_of_memory_witness :
    0 < 10 ∧ (acquire build64 env_null 8 10 none).result ≠ .error .too_large ∧
    (acquire build64 env_null 8 10 none).result ≠ .ok NULL ∧
    (acquire build64 env_null 8 10 none).result = .error .out_of_memory :=
  have h := acquire_null_is_out_of_memory build64 env_null 8 10 none (by decide) (by decide)
  ⟨by decide, by decide, h.1, h.2.1 (by decide) (by decide)⟩

/-- C4 (as stated) fails at `n_elem = 0`: the request passes the size check,
`malloc(0)` returns the null pointer, and `acquire` returns that null pointer
without an error. -/
theorem acquire_zero_returns_null :
    (acquire build64 env_null 8 0 none).result ≠ .error .too_large ∧
    alloc_result build64 env_null = NULL ∧
    (acquire build64 env_null 8 0 none).result = .ok NULL ∧
    (acquire build64 env_null 8 0 none).result ≠ .error .out_of_memory := by
  decide

/-- Outcome of `acquire` when the size check fires. -/
theorem acquire_eq_too_large (b : Build) (env : Env) (s n : Nat) (flag : Option Bool)
    (hg : to_size_t b n > SIZE_MAX b / s) :
    acquire b env s n flag =
      { result := .error .too_large,
        flag := if flag.isSome then some false else none,
        trace := if flag.isSome then [Call.store_flag false] else [],
        file_len := 0 } := by
  simp [acquire, arma_debug_check, hg]

/-- Outcome of `acquire` when the size check passes and the mapped path is not
taken (`n_elem = 0`, or no `ARMA_USE_MMAP`, or a null flag). -/
theorem acquire_eq_plain (b : Build) (env : Env) (s n : Nat) (flag : Option Bool)
    (hg : ¬ (to_size_t b n > SIZE_MAX b / s))
    (hm : n = 0 ∨ (b.use_mmap && flag.isSome) = false) :
    acquire b env s n flag =
      { result := if 0 < n ∧ alloc_result b env = NULL then .error .out_of_memory
                  else .ok (alloc_result b env),
        flag := if flag.isSome then some false else none,
        trace := (if flag.isSome then [Call.store_flag false] else [])
                  ++ [alloc_call b (size_t_mul b s n)],
        file_len := 0 } := by
  have hg' : ¬ (SIZE_MAX b / s < to_size_t b n) := hg
  rcases hm with h0 | hm
  · subst h0
    simp [acquire, arma_debug_check, hg']
  · by_cases hn : 0 < n
    · by_cases hnull : alloc_result b env = NULL
      · simp [acquire, arma_debug_check, arma_check_bad_alloc, hg', hn, hm, hnull]
      · simp [acquire, arma_debug_check, arma_check_bad_alloc, hg', hn, hm, hnull]
    · have h0 : n = 0 := by omega
      subst h0
      simp [acquire, arma_debug_check, hg']

/-- On the mapped path a normal return means that every step succeeded, and
the outcome is the mapped pointer, the flag `true` and the full trace. -/
theorem acquire_eq_mapped (b : Build) (env : Env) (s n p : Nat) (f0 : Bool)
    (hn : 0 < n) (hm : b.use_mmap = true)
    (hok : (acquire b env s n (some f0)).result = .ok p) :
    p = env.mmap_ret ∧
    acquire b env s n (some f0) =
      { result := .ok env.mmap_ret, flag := some true, trace := mapped_trace b env s n,
        file_len := (mapped_file b env s n).length } := by
  by_cases hg : to_size_t b n > SIZE_MAX b / s
  · rw [acquire_eq_too_large b env s n _ hg] at hok
    exact absurd hok (by simp)
  have hg' : ¬ (SIZE_MAX b / s < to_size_t b n) := hg
  simp only [acquire, arma_debug_check, arma_check_bad_alloc, decide_eq_true_eq, hg',
    if_false, hn, if_true, hm, Option.isSome_some, Bool.and_self, mapped_trace, mapped_file,
    write_bursts_calls] at hok ⊢
  split_ifs at hok ⊢
  all_goals simp at hok
  exact ⟨hok.symm, by simp⟩

/-- Without the mapped path a normal return gives the allocator pointer, the
flag `false` and a trace of the store and the allocator call. -/
theorem acquire_eq_unmapped (b : Build) (env : Env) (s n p : Nat) (f0 : Bool)
    (hmap : ¬ (b.use_mmap = true ∧ 0 < n))
    (hok : (acquire b env s n (some f0)).result = .ok p) :
    p = alloc_result b env ∧
    acquire b env s n (some f0) =
      { result := .ok (alloc_result b env), flag := some false,
        trace := [Call.store_flag false, alloc_call b (size_t_mul b s n)],
        file_len := 0 } := by
  by_cases hg : to_size_t b n > SIZE_MAX b / s
  · rw [acquire_eq_too_large b env s n _ hg] at hok
    exact absurd hok (by simp)
  have hm : n = 0 ∨ (b.use_mmap && (some f0).isSome) = false := by
    by_cases hn : n = 0
    · exact Or.inl hn
    · right
      have : ¬ b.use_mmap = true := fun h => hmap ⟨h, by omega⟩
      simpa using this
  have heq := acquire_eq_plain b env s n (some f0) hg hm
  rw [heq] at hok ⊢
  by_cases h : 0 < n ∧ alloc_result b env = NULL
  · simp [h] at hok
  · simp only [h, if_false, Except.ok.injEq] at hok
    exact ⟨hok.symm, by simp [h]⟩

/-- The pointer that the compiled allocator hands to `acquire`, in terms of
what the calls returned. -/
theorem alloc_result_cases (b : Build) (env : Env) :
    (b.backend ≠ .posix_memalign → alloc_result b env = env.alloc_ret) ∧
    (b.backend = .posix_memalign → env.memalign_status = 0 →
      alloc_result b env = env.memalign_ptr) ∧
    (b.backend = .posix_memalign → env.memalign_status ≠ 0 → alloc_result b env = 0) := by
  refine ⟨?_, ?_, ?_⟩
  · intro h
    cases hb : b.backend <;> simp_all [alloc_result]
  · intro h h0
    simp [alloc_result, h, h0]
  · intro h h0
    simp [alloc_result, h, h0, NULL]

/-- C5: a call of `acquire` with a non-null flag that returns the pointer `p`.
The first thing done is the store of `false` through the flag.  If
`ARMA_USE_MMAP` is compiled in and `n_elem > 0`, the flag ends `true`, `p` is
the pointer returned by the `mmap` call, and that call was made.  Otherwise the
flag ends `false`, no `mmap` call was made and `p` is the pointer of the
compiled allocator: what `scalable_malloc`, `mkl_malloc`, `_aligned_malloc` or
`malloc` returned, or what `posix_memalign` stored when its status is 0 (null
when it is not).  So the flag is `true` exactly when an `mmap` call produced
the pointer, and `acquire(0, flag)` leaves the flag `false` in every build. -/
theorem acquire_flag_spec (b : Build) (env : Env) (s n p : Nat) (f0 : Bool)
    (hok : (acquire b env s n (some f0)).result = .ok p) :
    (∃ rest, (acquire b env s n (some f0)).trace = Call.store_flag false :: rest) ∧
    ((b.use_mmap = true ∧ 0 < n) →
      (acquire b env s n (some f0)).flag = some true ∧ p = env.mmap_ret ∧
      Call.mmap ((n * s) % 2 ^ b.size_t_bits) env.open_ret
        ∈ (acquire b env s n (some f0)).trace) ∧
    (¬ (b.use_mmap = true ∧ 0 < n) →
      (acquire b env s n (some f0)).flag = some false ∧
      (b.backend ≠ .posix_memalign → p = env.alloc_ret) ∧
      (b.backend = .posix_memalign → env.memalign_status = 0 → p = env.memalign_ptr) ∧
      (b.backend = .posix_memalign → env.memalign_status ≠ 0 → p = 0) ∧
      ∀ len fd, Call.mmap len fd ∉ (acquire b env s n (some f0)).trace) ∧
    ((acquire b env s n (some f0)).flag = some true ↔
      ∃ len fd, Call.mmap len fd ∈ (acquire b env s n (some f0)).trace) ∧
    (acquire b env s 0 (some f0)).flag = some false := by
  have hne : ∀ len fd, Call.mmap len fd ≠ alloc_call b (size_t_mul b s n) :=
    fun len fd h => alloc_call_ne_mmap b (size_t_mul b s n) len fd h.symm
  have hzero : (acquire b env s 0 (some f0)).flag = some false := by
    simp [acquire, arma_debug_check, to_size_t]
  refine ⟨?_, ?_, ?_, ?_, hzero⟩
  all_goals by_cases hmap : b.use_mmap = true ∧ 0 < n
  · obtain ⟨-, heq⟩ := acquire_eq_mapped b env s n p f0 hmap.2 hmap.1 hok
    rw [heq]
    exact ⟨_, rfl⟩
  · obtain ⟨-, heq⟩ := acquire_eq_unmapped b env s n p f0 hmap hok
    rw [heq]
    exact ⟨_, rfl⟩
  · intro _
    obtain ⟨hp, heq⟩ := acquire_eq_mapped b env s n p f0 hmap.2 hmap.1 hok
    rw [heq]
    exact ⟨rfl, hp, by simp [mapped_trace, size_t_mul, to_size_t]⟩
  · intro h
    exact absurd h hmap
  · intro h
    exact absurd hmap h
  · intro _
    obtain ⟨hp, heq⟩ := acquire_eq_unmapped b env s n p f0 hmap hok
    obtain ⟨h1, h2, h3⟩ := alloc_result_cases b env
    rw [heq]
    refine ⟨rfl, fun h => hp.trans (h1 h), fun h h' => hp.trans (h2 h h'),
      fun h h' => hp.trans (h3 h h'), ?_⟩
    intro len fd
    simp [hne len fd]
  · obtain ⟨-, heq⟩ := acquire_eq_mapped b env s n p f0 hmap.2 hmap.1 hok
    rw [heq]
    simp only [true_iff]
    exact ⟨size_t_mul b n s, env.open_ret, by simp [mapped_trace]⟩
  · obtain ⟨-, heq⟩ := acquire_eq_unmapped b env s n p f0 hmap hok
    rw [heq]
    simp [hne]

/-- Witness of C5: `acquire<float>(50000000, &flag)` on the mapped path, then
`acquire<double>(10, &flag)` without it on the `malloc` and on the
`posix_memalign` build, then `acquire<float>(0, &flag)`. -/
theorem acquire_flag_spec_witness :
    ((acquire build64_mmap env_ok 4 50000000 (some false)).result = .ok 1048576 ∧
      (acquire build64_mmap env_ok 4 50000000 (some false)).flag = some true ∧
      1048576 = env_ok.mmap_ret) ∧
    ((acquire build64 env_ok 8 10 (some true)).result = .ok 4096 ∧
      (acquire build64 env_ok 8 10 (some true)).flag = some false ∧
      4096 = env_ok.alloc_ret) ∧
    ((acquire build64_posix env_ok 8 10 (some true)).result = .ok 8192 ∧
      (acquire build64_posix env_ok 8 10 (some true)).flag = some false ∧
      8192 = env_ok.memalign_ptr) ∧
    (acquire build64_mmap env_ok 4 0 (some false)).flag = some false :=
  have h1 := acquire_flag_spec build64_mmap env_ok 4 50000000 1048576 false (by decide)
  have h2 := acquire_flag_spec build64 env_ok 8 10 4096 true (by decide)
  have h3 := acquire_flag_spec build64_posix env_ok 8 10 8192 true (by decide)
  ⟨⟨by decide, (h1.2.1 ⟨rfl, by decide⟩).1, (h1.2.1 ⟨rfl, by decide⟩).2.1⟩,
    ⟨by decide, (h2.2.2.1 (by decide)).1, (h2.2.2.1 (by decide)).2.1 (by decide)⟩,
    ⟨by decide, (h3.2.2.1 (by decide)).1, (h3.2.2.1 (by decide)).2.2.1 rfl rfl⟩,
    h1.2.2.2.2⟩

/-- In every build the deallocation call of `release` is the one paired with
the allocation call of `acquire`. -/
theorem spec_paired_free_alloc_call (b : Build) (bytes mem : Nat) :
    spec_paired_free (alloc_call b bytes) mem = some (free_call b mem) := by
  cases hb : b.backend <;> simp [spec_paired_free, alloc_call, free_call, hb]

/-- C6: `release(mem, mlen, false)` in every build.  Exactly one call is made,
it is the deallocation function paired with the allocator that `acquire` calls
in the same build, applied to `mem`; `munmap` is not called; the call returns
normally; and the outcome is the same for every `mlen` (and does not depend on
the environment). -/
theorem release_unmapped_spec (b : Build) (env env' : Env) (s n mem mlen mlen' : Nat)
    (flag : Option Bool) :
    (release b env mem mlen false).trace = [free_call b mem] ∧
    spec_paired_free (alloc_call b (size_t_mul b s n)) mem = some (free_call b mem) ∧
    ((acquire b env s n flag).result ≠ .error .too_large →
      alloc_call b (size_t_mul b s n) ∈ (acquire b env s n flag).trace) ∧
    (∀ c ∈ (acquire b env s n none).trace, spec_paired_free c mem = some (free_call b mem)) ∧
    (∀ m l, Call.munmap m l ∉ (release b env mem mlen false).trace) ∧
    (release b env mem mlen false).result = .ok () ∧
    release b env mem mlen false = release b env' mem mlen' false := by
  have hpair := spec_paired_free_alloc_call b (size_t_mul b s n) mem
  refine ⟨rfl, hpair, ?_, ?_, ?_, rfl, rfl⟩
  · intro hchk
    have hg : ¬ (to_size_t b n > SIZE_MAX b / s) := by
      intro hg
      rw [acquire_eq_too_large b env s n flag hg] at hchk
      exact hchk rfl
    have hg' : ¬ (SIZE_MAX b / s < to_size_t b n) := hg
    simp only [acquire, arma_debug_check, arma_check_bad_alloc, decide_eq_true_eq, hg',
      if_false]
    split_ifs <;> simp
  · intro c hc
    by_cases hg : to_size_t b n > SIZE_MAX b / s
    · rw [acquire_eq_too_large b env s n none hg] at hc
      simp at hc
    · rw [acquire_eq_plain b env s n none hg (Or.inr (by simp))] at hc
      simp only [Option.isSome_none, Bool.false_eq_true, if_false, List.nil_append,
        List.mem_singleton] at hc
      rw [hc]
      exact hpair
  · intro m l
    simp only [release, Bool.false_eq_true, if_false, List.mem_singleton]
    cases hb : b.backend <;> simp [free_call, hb]

/-- C7: `release` fails with "unable to unmap matrix" exactly when `mapstate`
is true and the call `munmap(mem, mlen)` returns -1; it has no other failure,
and with `mapstate` false it returns normally. -/
theorem release_fails_iff (b : Build) (env : Env) (mem mlen : Nat) (mapstate : Bool) :
    ((release b env mem mlen mapstate).result = .error .unmap_failed ↔
      (mapstate = true ∧ env.munmap_ret = -1)) ∧
    ((release b env mem mlen mapstate).result ≠ .error .unmap_failed →
      (release b env mem mlen mapstate).result = .ok ()) ∧
    (mapstate = true → Call.munmap mem mlen ∈ (release b env mem mlen mapstate).trace) ∧
    (release b env mem mlen false).result = .ok () := by
  refine ⟨?_, ?_, ?_, rfl⟩
  · cases mapstate
    · simp [release]
    · by_cases h : env.munmap_ret = -1 <;> simp [release, arma_debug_check, h]
  · cases mapstate
    · simp [release]
    · by_cases h : env.munmap_ret = -1 <;> simp [release, arma_debug_check, h]
  · intro h
    subst h
    simp only [release, if_true]
    split_ifs <;> simp

/-- The number of bytes read off an allocator call of the build is the number
the call was made with. -/
theorem requested_bytes_alloc_call (b : Build) (bytes : Nat) :
    requested_bytes (alloc_call b bytes) = some bytes := by
  cases hb : b.backend <;> simp [requested_bytes, alloc_call, hb]

/-- C8: what `acquire_chunked` does, and the code at the failing input.  In
every build, also with `ARMA_USE_MMAP`, `acquire_chunked(n_elem)` has the
result and the effects of `acquire(enlarge_to_mult_of_chunksize(n_elem), NULL)`:
no flag is stored, no file is written or mapped, and every call made is an
allocator call, exactly one unless the size check fails.  The number of bytes
asked for is the `size_t` value of `sizeof(eT)*n_elem_mod`; it is the exact
product when the rounded count is a value of `size_t`.  With a 64-bit `uword`
and a 32-bit `size_t` it is not: `acquire_chunked<double>(4294967041)` rounds
to `2^32` elements, passes the size check and calls `malloc(0)`, while on the
64-bit build `acquire_chunked<double>(257)` calls `malloc(4096)`. -/
theorem acquire_chunked_spec (b : Build) (env : Env) (s n : Nat) :
    acquire_chunked b env s n = acquire b env s (enlarge_to_mult_of_chunksize b n) none ∧
    (acquire_chunked b env s n).flag = none ∧
    (acquire_chunked b env s n).file_len = 0 ∧
    (∀ c ∈ (acquire_chunked b env s n).trace,
      requested_bytes c = some ((s * enlarge_to_mult_of_chunksize b n) % 2 ^ b.size_t_bits)) ∧
    ((acquire_chunked b env s n).result ≠ .error .too_large →
      ∃ c, (acquire_chunked b env s n).trace = [c]) ∧
    ((acquire_chunked b env s n).result = .error .too_large →
      (acquire_chunked b env s n).trace = []) ∧
    ((acquire_chunked b env s n).result ≠ .error .too_large →
      enlarge_to_mult_of_chunksize b n ≤ SIZE_MAX b →
      ∀ c ∈ (acquire_chunked b env s n).trace,
        requested_bytes c = some (enlarge_to_mult_of_chunksize b n * s)) ∧
    enlarge_to_mult_of_chunksize build32_word64 4294967041 = 4294967296 ∧
    acquire_chunked build32_word64 env_ok 8 4294967041 =
      { result := .ok 4096, flag := none, trace := [Call.malloc 0], file_len := 0 } ∧
    acquire_chunked build64 env_ok 8 257 =
      { result := .ok 4096, flag := none, trace := [Call.malloc 4096], file_len := 0 } := by
  have hdef : acquire_chunked b env s n
      = acquire b env s (enlarge_to_mult_of_chunksize b n) none := rfl
  refine ⟨rfl, ?_, ?_, ?_, ?_, ?_, ?_, by decide, by decide, by decide⟩
  all_goals rw [hdef]
  all_goals generalize enlarge_to_mult_of_chunksize b n = m
  all_goals by_cases hg : to_size_t b m > SIZE_MAX b / s
  · rw [acquire_eq_too_large b env s m none hg]
    simp
  · rw [acquire_eq_plain b env s m none hg (Or.inr (by simp))]
    simp
  · rw [acquire_eq_too_large b env s m none hg]
  · rw [acquire_eq_plain b env s m none hg (Or.inr (by simp))]
  · rw [acquire_eq_too_large b env s m none hg]
    simp
  · rw [acquire_eq_plain b env s m none hg (Or.inr (by simp))]
    intro c hc
    simp only [Option.isSome_none, Bool.false_eq_true, if_false, List.nil_append,
      List.mem_singleton] at hc
    rw [hc, requested_bytes_alloc_call]
    rfl
  · rw [acquire_eq_too_large b env s m none hg]
    simp
  · rw [acquire_eq_plain b env s m none hg (Or.inr (by simp))]
    intro _
    exact ⟨alloc_call b (size_t_mul b s m), by simp⟩
  · rw [acquire_eq_too_large b env s m none hg]
    simp
  · rw [acquire_eq_plain b env s m none hg (Or.inr (by simp))]
    intro h
    split_ifs at h <;> simp at h
  · rw [acquire_eq_too_large b env s m none hg]
    simp
  · rw [acquire_eq_plain b env s m none hg (Or.inr (by simp))]
    intro _ hm c hc
    simp only [Option.isSome_none, Bool.false_eq_true, if_false, List.nil_append,
      List.mem_singleton] at hc
    rw [hc, requested_bytes_alloc_call, size_t_mul_exact b s m hm hg]

/-- C9: `is_aligned` on a pointer address `a`.  In a build with the alignment
check it returns true only if `a` is a multiple of 16, and if `size_t` is at
least as wide as a pointer it returns true exactly when `a % 16 = 0`, which is
the test `(a & 0x0F) == 0`; in every other build it returns false for every
address, multiples of 16 included. -/
theorem is_aligned_spec (b : Build) (a : Nat) (ha : a < 2 ^ b.ptr_bits) :
    (b.check_alignment = true → is_aligned b a = true → a % 16 = 0) ∧
    (b.check_alignment = true → b.size_t_bits ≥ b.ptr_bits →
      (is_aligned b a = true ↔ a % 16 = 0) ∧
      (is_aligned b a = decide (a &&& 0x0F = 0))) ∧
    (b.check_alignment = false → is_aligned b a = false ∧ is_aligned b (16 * a) = false) := by
  have hand : ∀ x : Nat, x &&& 15 = x % 16 := fun x => Nat.and_pow_two_sub_one_eq_mod x 4
  have hcast : b.size_t_bits ≥ b.ptr_bits → to_size_t b a = a := by
    intro hw
    apply Nat.mod_eq_of_lt
    exact lt_of_lt_of_le ha (Nat.pow_le_pow_right (by decide) hw)
  refine ⟨?_, ?_, ?_⟩
  · intro hc h
    by_cases hw : b.size_t_bits ≥ b.ptr_bits
    · simpa [is_aligned, hc, hw, hcast hw, hand] using h
    · simp [is_aligned, hc, hw] at h
  · intro hc hw
    constructor
    · simp [is_aligned, hc, hw, hcast hw, hand]
    · simp [is_aligned, hc, hw, hcast hw]
  · intro hc
    simp [is_aligned, hc]

/-- Witness of C9: the addresses 4096 and 4100 on the 64-bit build. -/
theorem is_aligned_spec_witness :
    4096 < 2 ^ build64.ptr_bits ∧ is_aligned build64 4096 = true ∧
    is_aligned build64 4100 = false ∧ is_aligned build32 4096 = false :=
  ⟨by decide,
    ((is_aligned_spec build64 4096 (by decide)).2.1 rfl (by decide)).1.2 (by decide),
    by
      have h := ((is_aligned_spec build64 4100 (by decide)).2.1 rfl (by decide)).1
      cases hv : is_aligned build64 4100
      · rfl
      · exact absurd (h.1 hv) (by decide),
    ((is_aligned_spec build32 4096 (by decide)).2.2 rfl).1⟩

/-- Writes of a concatenation. -/
theorem write_calls_append (t u : List Call) :
    write_calls (t ++ u) = write_calls t ++ write_calls u := by
  simp [write_calls]

/-- A list of writes consists of writes only. -/
theorem write_calls_replicate (burst k : Nat) :
    write_calls (List.replicate k (Call.fstream_write burst))
      = List.replicate k (Call.fstream_write burst) := by
  induction k with
  | zero => rfl
  | succ k ih =>
    simp only [write_calls, List.replicate_succ] at ih ⊢
    rw [List.filter_cons_of_pos (by rfl), ih]

/-- An allocator call is not a `b.write`. -/
theorem is_write_alloc_call (b : Build) (bytes : Nat) :
    is_write (alloc_call b bytes) = false := by
  cases hb : b.backend <;> simp [alloc_call, hb, is_write]

/-- For a positive `uword` value the loop bound `(n_elem/10000000)+1` does not
wrap. -/
theorem loop_bound_exact (b : Build) (n : Nat) (hn : 0 < n) (hu : n < UWORD_MOD b) :
    to_uword b ((n / 10000000) + 1) = n / 10000000 + 1 := by
  apply to_uword_of_lt
  omega

/-- The shape of a run on the mapped path: either the burst buffer could not
be built, nothing was written and `mmap` was not called, or the trace is the
common prefix, the stream, the bursts, and a tail without writes whose only
`mmap` call has the length `n_elem*sizeof(eT)` as a `size_t`, and the file is
what the loop left. -/
theorem acquire_mapped_trace_cases (b : Build) (env : Env) (s n : Nat) (f0 : Bool)
    (hm : b.use_mmap = true) (hn : 0 < n)
    (hg : ¬ (to_size_t b n > SIZE_MAX b / s)) :
    ((acquire b env s n (some f0)).result = .error .vector_failed ∧
      (acquire b env s n (some f0)).trace =
        [Call.store_flag false, alloc_call b (size_t_mul b s n), Call.cout, Call.mkstemp,
          Call.vector_ctor 10000000]) ∨
    (10000000 * s ≤ SIZE_MAX b ∧
      (acquire b env s n (some f0)).result ≠ .error .vector_failed ∧
      (acquire b env s n (some f0)).file_len = (mapped_file b env s n).length ∧
      ∃ tail,
        (acquire b env s n (some f0)).trace =
          [Call.store_flag false, alloc_call b (size_t_mul b s n), Call.cout, Call.mkstemp,
            Call.vector_ctor 10000000, Call.fstream_open]
          ++ List.replicate (to_uword b ((n / 10000000) + 1))
               (Call.fstream_write (size_t_mul b s 10000000))
          ++ tail ∧
        write_calls tail = [] ∧
        ∀ len fd, Call.mmap len fd ∈ tail → len = size_t_mul b n s) := by
  have hg' : ¬ (SIZE_MAX b / s < to_size_t b n) := hg
  by_cases hv : (env.vector_ok && decide (10000000 * s ≤ SIZE_MAX b)) = true
  · right
    have hv' := hv
    simp only [Bool.and_eq_true, decide_eq_true_eq] at hv'
    refine ⟨hv'.2, ?_⟩
    by_cases hf : env.mkstemp_ret = -1
    · refine ⟨?_, ?_, [], ?_, rfl, by simp⟩
      all_goals simp [acquire, arma_debug_check, arma_check_bad_alloc, hg', hn, hm, hv'.1,
        hv'.2, hf, write_bursts_calls, mapped_file]
    by_cases hmf : env.mmap_ret = MAP_FAILED b
    · refine ⟨?_, ?_, [Call.open_rdwr, Call.mmap (size_t_mul b n s) env.open_ret], ?_, rfl,
        by simp⟩
      all_goals simp [acquire, arma_debug_check, arma_check_bad_alloc, hg', hn, hm, hv'.1,
        hv'.2, hf, hmf, write_bursts_calls, mapped_file]
    by_cases hnull : env.mmap_ret = NULL
    · have hmf' : ¬ (NULL = MAP_FAILED b) := by rw [← hnull]; exact hmf
      refine ⟨?_, ?_, [Call.open_rdwr, Call.mmap (size_t_mul b n s) env.open_ret,
        Call.fstream_close, Call.close env.mkstemp_ret, Call.store_flag true], ?_, rfl,
        by simp⟩
      all_goals simp [acquire, arma_debug_check, arma_check_bad_alloc, hg', hn, hm, hv'.1,
        hv'.2, hf, hmf', hnull, write_bursts_calls, mapped_file]
    · refine ⟨?_, ?_, [Call.open_rdwr, Call.mmap (size_t_mul b n s) env.open_ret,
        Call.fstream_close, Call.close env.mkstemp_ret, Call.store_flag true], ?_, rfl,
        by simp⟩
      all_goals simp [acquire, arma_debug_check, arma_check_bad_alloc, hg', hn, hm, hv'.1,
        hv'.2, hf, hmf, hnull, write_bursts_calls, mapped_file]
  · left
    have hv' : (env.vector_ok && decide (10000000 * s ≤ SIZE_MAX b)) = false := by
      simpa using hv
    simp [acquire, arma_debug_check, hg', hn, hm, hv']

/-- What the zero-fill loop of the mapped path achieves (`ARMA_USE_MMAP`,
non-null flag, `n_elem > 0` a value of `uword` that passes the size check).
Once the burst buffer exists the loop makes `n_elem/10000000 + 1` calls of
`b.write` for `sizeof(eT) * 10000000` bytes each, at least
`n_elem * sizeof(eT)` bytes in all.  Whenever `mmap` is called its length is the
`size_t` value of `n_elem*sizeof(eT)`.  The file is at least that long when the
stream was opened and the disk took every burst; it is empty when the stream
was not opened, and it never exceeds what the disk takes. -/
theorem acquire_zero_fill_file (b : Build) (env : Env) (s n : Nat) (f0 : Bool)
    (hm : b.use_mmap = true) (hn : 0 < n) (hu : n < UWORD_MOD b)
    (hchk : (acquire b env s n (some f0)).result ≠ .error .too_large) :
    ((acquire b env s n (some f0)).result ≠ .error .vector_failed →
      write_calls (acquire b env s n (some f0)).trace =
        List.replicate (n / 10000000 + 1) (Call.fstream_write (s * 10000000)) ∧
      n * s ≤ (n / 10000000 + 1) * (s * 10000000)) ∧
    (∀ len fd, Call.mmap len fd ∈ (acquire b env s n (some f0)).trace →
      len = (n * s) % 2 ^ b.size_t_bits ∧ len ≤ n * s ∧
      (env.fstream_ok = true → (n / 10000000 + 1) * (s * 10000000) ≤ env.disk_free →
        (acquire b env s n (some f0)).file_len = (n / 10000000 + 1) * (s * 10000000) ∧
        len ≤ (acquire b env s n (some f0)).file_len) ∧
      (env.fstream_ok = false → (acquire b env s n (some f0)).file_len = 0) ∧
      (acquire b env s n (some f0)).file_len ≤ env.disk_free) := by
  have hg : ¬ (to_size_t b n > SIZE_MAX b / s) := by
    intro hg
    rw [acquire_eq_too_large b env s n _ hg] at hchk
    exact hchk rfl
  have hcover : n * s ≤ (n / 10000000 + 1) * (s * 10000000) := by
    have h1 : n ≤ (n / 10000000 + 1) * 10000000 := by omega
    calc n * s ≤ ((n / 10000000 + 1) * 10000000) * s := Nat.mul_le_mul_right s h1
      _ = (n / 10000000 + 1) * (s * 10000000) := by ring
  have hlen : size_t_mul b n s ≤ n * s := Nat.mod_le _ _
  rcases acquire_mapped_trace_cases b env s n f0 hm hn hg with
    ⟨hres, htr⟩ | ⟨hv, hres, hfile, tail, htr, hw0, hmm⟩
  · refine ⟨fun h => absurd hres h, ?_⟩
    intro len fd hmem
    rw [htr] at hmem
    have := alloc_call_ne_mmap b (size_t_mul b s n) len fd
    simp at hmem
    exact absurd hmem.symm this
  · have hburst : size_t_mul b s 10000000 = s * 10000000 := by
      unfold size_t_mul
      apply to_size_t_of_le
      rw [Nat.mul_comm]
      exact hv
    have hbound := loop_bound_exact b n hn hu
    rw [hburst, hbound] at htr
    refine ⟨fun _ => ⟨?_, hcover⟩, ?_⟩
    · rw [htr, write_calls_append, write_calls_append, write_calls_replicate, hw0]
      simp only [write_calls, List.filter_cons, is_write_alloc_call]
      simp [is_write]
    · intro len fd hmem
      have hlen' : len = size_t_mul b n s := by
        rw [htr] at hmem
        simp only [List.mem_append, List.mem_cons, List.mem_singleton, List.not_mem_nil,
          or_false] at hmem
        rcases hmem with (h | h) | h
        · rcases h with h | h | h | h | h | h
          · exact absurd h (by simp)
          · exact absurd h.symm (alloc_call_ne_mmap b _ len fd)
          all_goals exact absurd h (by simp)
        · have := List.eq_of_mem_replicate h
          exact absurd this (by simp)
        · exact hmm len fd h
      have hfile' : (acquire b env s n (some f0)).file_len
          = (write_bursts env (s * 10000000) (n / 10000000 + 1)
              { good := env.fstream_ok, length := 0 }).1.length := by
        rw [hfile, mapped_file, hburst, hbound]
      refine ⟨hlen', by rw [hlen']; exact hlen, ?_, ?_, ?_⟩
      · intro hopen hfree
        have hall := write_bursts_all_written env (s * 10000000) (n / 10000000 + 1)
          { good := env.fstream_ok, length := 0 } hopen (by simpa using hfree)
        rw [hfile', hall]
        simp only [Nat.zero_add, true_and]
        rw [hlen']
        exact le_trans hlen hcover
      · intro hopen
        rw [hfile', write_bursts_not_good env _ _ _ hopen]
      · rw [hfile']
        exact write_bursts_length_le env _ _ _ (Nat.zero_le _)

/-- Witness of the lemma on the zero-fill loop: `acquire<float>(50000000, &flag)`
with enough room on the disk; six bursts of 40000000 bytes, a file of 240000000
bytes for a mapping of 200000000 bytes. -/
theorem acquire_zero_fill_file_witness :
    build64_mmap.use_mmap = true ∧ 0 < 50000000 ∧ 50000000 < UWORD_MOD build64_mmap ∧
    (acquire build64_mmap env_ok 4 50000000 (some false)).result ≠ .error .too_large ∧
    write_calls (acquire build64_mmap env_ok 4 50000000 (some false)).trace =
      List.replicate 6 (Call.fstream_write 40000000) ∧
    Call.mmap 200000000 4 ∈ (acquire build64_mmap env_ok 4 50000000 (some false)).trace ∧
    (acquire build64_mmap env_ok 4 50000000 (some false)).file_len = 240000000 :=
  have h := acquire_zero_fill_file build64_mmap env_ok 4 50000000 false rfl
    (by decide) (by decide) (by decide)
  have hmem : Call.mmap 200000000 4 ∈
      (acquire build64_mmap env_ok 4 50000000 (some false)).trace := by decide
  ⟨rfl, by decide, by decide, by decide, (h.1 (by decide)).1, hmem,
    ((h.2 200000000 4 hmem).2.2.1 rfl (by decide)).1⟩

/-- C10: the code at the failing input.  `acquire<float>(50000000, &flag)` on
the mapped path, with a disk that is full after 104857600 bytes: the loop calls
`b.write` six times for 40000000 bytes, the third write fails part way and the
stream ignores the rest; the state of the stream is never tested (only
`f == -1` is), so `mmap` is called with length 200000000, the flag is set and
the pointer is returned, over a file of 104857600 bytes.  With enough room on
the disk the same call leaves a file of 240000000 bytes. -/
theorem acquire_maps_beyond_file :
    (acquire build64_mmap env_disk_full 4 50000000 (some false)).result = .ok 1048576 ∧
    (acquire build64_mmap env_disk_full 4 50000000 (some false)).flag = some true ∧
    write_calls (acquire build64_mmap env_disk_full 4 50000000 (some false)).trace =
      List.replicate 6 (Call.fstream_write 40000000) ∧
    Call.mmap 200000000 4 ∈
      (acquire build64_mmap env_disk_full 4 50000000 (some false)).trace ∧
    (acquire build64_mmap env_disk_full 4 50000000 (some false)).file_len = 104857600 ∧
    (acquire build64_mmap env_disk_full 4 50000000 (some false)).file_len < 200000000 ∧
    (acquire build64_mmap env_ok 4 50000000 (some false)).file_len = 240000000 := by
  decide

end ArmaMmap
